/-
Verification of the property-prices service core: a shallow embedding of
the SPARQL search pipeline (`src/services/sparqlService.ts`), the query
transforms (`src/queries/queries.ts`) and the postcode nearest-neighbour
lookup (`src/services/postcodeService.ts`), together with theorems
settling the specification claims about them.

Modelling conventions:
- JavaScript strings are modelled by Lean `String`, manipulated through
  explicit helpers over the character list so that every operation is
  kernel-computable (`jsTrim`, `jsToUpper`, ...).
- JavaScript numbers holding prices/coordinates are modelled by `Int`;
  a `NaN`-able number (`parseInt` result) is `Option Int` with `none`
  playing the role of `NaN`, and the comparison helpers reproduce the
  `NaN`-comparisons-are-false semantics.
- Fallible code returns `Except`/`Option`; a thrown `Error` is a
  constructor of an explicit error type.
- `Array.prototype.sort` (stable since ES2019) with comparator `cmp` is
  modelled by a stable sort (`List.insertionSort`) under `cmp a b ≤ 0`.
- The remote SPARQL fetch is abstracted by passing the fetched row set
  to `searchProperties` directly; the sqlite postcode table is a
  `List PostcodeRecord` enumerated in its stored order, and the rtree
  bounding-box query is the corresponding order-preserving filter.
-/
import Mathlib

deriving instance DecidableEq for Except

namespace PropertyPricesMCP

/-! ### JavaScript string helpers -/

/-- JS `String.prototype.trim` (strip whitespace at both ends). -/
def jsTrim (s : String) : String :=
  (((s.data.dropWhile Char.isWhitespace).reverse.dropWhile Char.isWhitespace).reverse).asString

/-- JS `String.prototype.toUpperCase` (the data here is ASCII). -/
def jsToUpper (s : String) : String := (s.data.map Char.toUpper).asString

/-- JS `String.prototype.toLowerCase` (the data here is ASCII). -/
def jsToLower (s : String) : String := (s.data.map Char.toLower).asString

/-- JS `String.prototype.startsWith`. -/
def jsStartsWith (s pre : String) : Bool := pre.data.isPrefixOf s.data

/-- Lexicographic strict order on character lists, as JS `<` compares
strings code unit by code unit. -/
def charListLt : List Char → List Char → Bool
  | [], [] => false
  | [], _ :: _ => true
  | _ :: _, [] => false
  | a :: as, b :: bs => if a < b then true else if b < a then false else charListLt as bs

/-- JS `a < b` on strings. -/
def jsStrLt (a b : String) : Bool := charListLt a.data b.data

/-- JS truthiness of an optional string: `undefined` and `""` are falsy. -/
def strTruthy (o : Option String) : Bool :=
  match o with
  | none => false
  | some s => decide (s ≠ "")

/-- First index at which `pat` occurs in `hay` (as in JS `indexOf`), if any. -/
def firstMatch (pat : List Char) : List Char → Option Nat
  | [] => if pat = [] then some 0 else none
  | c :: rest =>
    if pat.isPrefixOf (c :: rest) then some 0
    else (firstMatch pat rest).map (· + 1)

/-- Last index at which character `c` occurs in `hay`, if any. -/
def lastMatch (c : Char) : List Char → Option Nat
  | [] => none
  | x :: rest =>
    match lastMatch c rest with
    | some n => some (n + 1)
    | none => if x = c then some 0 else none

/-- JS `String.prototype.indexOf` for a substring: first index, `-1` if absent. -/
def jsIndexOf (hay pat : String) : Int :=
  match firstMatch pat.data hay.data with
  | some n => (n : Int)
  | none => -1

/-- JS `String.prototype.lastIndexOf` for a single character: last index, `-1` if absent. -/
def jsLastIndexOf (hay : String) (c : Char) : Int :=
  match lastMatch c hay.data with
  | some n => (n : Int)
  | none => -1

/-- The `\x7d` character (written by code point to keep it out of literals). -/
def closeBrace : Char := Char.ofNat 125

/-! ### JavaScript number helpers -/

/-- JS `parseInt(s)` on decimal input: skip whitespace, optional sign, then the
longest digit prefix; `none` models `NaN` (no digits). The hexadecimal `0x`
auto-detection of `parseInt` is irrelevant to the decimal SPARQL literals this
service parses and is not modelled. -/
def parseIntJS (s : String) : Option Int :=
  let cs := (jsTrim s).data
  let signed : Bool × List Char :=
    match cs with
    | '-' :: rest => (true, rest)
    | '+' :: rest => (false, rest)
    | _ => (false, cs)
  let digits := signed.2.takeWhile Char.isDigit
  if digits = [] then none
  else
    let v : Int := (digits.foldl (fun acc c => acc * 10 + (c.toNat - 48)) 0 : Nat)
    some (if signed.1 then -v else v)

/-- JS `a >= b` where `a` may be `NaN` (`none`): any comparison with `NaN` is false. -/
def jsGeNum (a : Option Int) (b : Int) : Bool :=
  match a with
  | some x => decide (b ≤ x)
  | none => false

/-- JS `a <= b` where `a` may be `NaN` (`none`). -/
def jsLeNum (a : Option Int) (b : Int) : Bool :=
  match a with
  | some x => decide (x ≤ b)
  | none => false

/-- JS `x || d` on an optional number: `undefined`, and the falsy `0`, give `d`. -/
def jsOrNum (o : Option Int) (d : Int) : Int :=
  match o with
  | some v => if v = 0 then d else v
  | none => d

/-! ### Data model of `src/services/sparqlService.ts` -/

/-- The property category enum (`PropertyType` in `src/models/types.ts`). -/
inductive PropertyType where
  | detached
  | semiDetached
  | terraced
  | flat
  | other
deriving DecidableEq

/-- The enum value strings of `PropertyTypeSchema`. -/
def propertyTypeString : PropertyType → String
  | .detached => "detached"
  | .semiDetached => "semi-detached"
  | .terraced => "terraced"
  | .flat => "flat"
  | .other => "other"

/-- A raw SPARQL result row (`SparqlBinding`): each field is present
(`some value`) or absent (`none`). -/
structure SparqlBinding where
  amount : Option String := none
  date : Option String := none
  postcode : Option String := none
  propertyType : Option String := none
  street : Option String := none
  town : Option String := none
  county : Option String := none
  paon : Option String := none
  saon : Option String := none
  category : Option String := none
  estateType : Option String := none
  newBuild : Option String := none
deriving DecidableEq

/-- A parsed property record (`PropertyPrice` in `src/models/types.ts`);
`price` is `none` when `parseInt` yields `NaN`. -/
structure PropertyPrice where
  price : Option Int
  date : String
  postcode : String
  propertyType : PropertyType
  street : String
  city : String
deriving DecidableEq

/-- Sort key enum (`sortBy` in `SearchParamsSchema`). -/
inductive SortBy where
  | date
  | price
deriving DecidableEq

/-- Sort direction enum (`sortOrder` in `SearchParamsSchema`). -/
inductive SortOrder where
  | asc
  | desc
deriving DecidableEq

/-- Search parameters (`SearchParams` in `src/models/types.ts`); every field
is optional, as in the zod schema. -/
structure SearchParams where
  postcode : Option String := none
  street : Option String := none
  city : Option String := none
  minPrice : Option Int := none
  maxPrice : Option Int := none
  propertyType : Option PropertyType := none
  fromDate : Option String := none
  toDate : Option String := none
  limit : Option Int := none
  offset : Option Int := none
  sortBy : Option SortBy := none
  sortOrder : Option SortOrder := none
deriving DecidableEq

/-- The search response (`SearchResponse` in `src/models/types.ts`). -/
structure SearchResponse where
  properties : List PropertyPrice
  total : Nat
  offset : Int
  limit : Int
deriving DecidableEq

/-- The distinct `throw new Error(...)` sites of `searchProperties` and
`parsePropertyPrice`, one constructor per message. -/
inductive SearchError where
  | invalidEndpoint
  | missingSearchKey
  | negativeMinPrice
  | negativeMaxPrice
  | minAboveMax
  | negativeOffset
  | nonPositiveLimit
  | incompleteRecord
deriving DecidableEq

/-- The four known category URIs of `mapPropertyType`. -/
def knownPropertyTypeUris : List String :=
  [ "http://landregistry.data.gov.uk/def/common/detached",
    "http://landregistry.data.gov.uk/def/common/semi-detached",
    "http://landregistry.data.gov.uk/def/common/terraced",
    "http://landregistry.data.gov.uk/def/common/flat-maisonette" ]

/-- `mapPropertyType` (sparqlService.ts): the fixed four-entry URI table with
fallback `other` (the unknown-URI warning is logging only). -/
def mapPropertyType (uri : String) : PropertyType :=
  if uri = "http://landregistry.data.gov.uk/def/common/detached" then .detached
  else if uri = "http://landregistry.data.gov.uk/def/common/semi-detached" then .semiDetached
  else if uri = "http://landregistry.data.gov.uk/def/common/terraced" then .terraced
  else if uri = "http://landregistry.data.gov.uk/def/common/flat-maisonette" then .flat
  else .other

/-- `parsePropertyPrice` (sparqlService.ts): throws when `amount`, `date` or
`propertyType` is absent; otherwise builds the record, defaulting the optional
`postcode`, `street`, `town` fields to `""`. -/
def parsePropertyPrice (b : SparqlBinding) : Except SearchError PropertyPrice :=
  match b.amount, b.date, b.propertyType with
  | some a, some d, some t =>
    .ok { price := parseIntJS a
          date := d
          postcode := b.postcode.getD ""
          propertyType := mapPropertyType t
          street := b.street.getD ""
          city := b.town.getD "" }
  | _, _, _ => .error .incompleteRecord

/-- `minPrice !== undefined && minPrice < 0` (and the `offset` analogue). -/
def optNegative (o : Option Int) : Bool :=
  match o with
  | some v => decide (v < 0)
  | none => false

/-- `limit !== undefined && limit <= 0`. -/
def optNonPositive (o : Option Int) : Bool :=
  match o with
  | some v => decide (v ≤ 0)
  | none => false

/-- `minPrice !== undefined && maxPrice !== undefined && minPrice > maxPrice`. -/
def minAboveMaxCheck (mn mx : Option Int) : Bool :=
  match mn, mx with
  | some a, some b => decide (b < a)
  | _, _ => false

/-- The sequence of validation checks of `searchProperties`, in source order;
`some err` is the first failing check's thrown error. -/
def validateSearch (endpoint : String) (p : SearchParams) : Option SearchError :=
  if endpoint = "" ∨ jsStartsWith endpoint "http" = false then some .invalidEndpoint
  else if ¬ (strTruthy p.postcode = true ∨
             (strTruthy p.street = true ∧ strTruthy p.city = true)) then some .missingSearchKey
  else if optNegative p.minPrice then some .negativeMinPrice
  else if optNegative p.maxPrice then some .negativeMaxPrice
  else if minAboveMaxCheck p.minPrice p.maxPrice then some .minAboveMax
  else if optNegative p.offset then some .negativeOffset
  else if optNonPositive p.limit then some .nonPositiveLimit
  else none

/-- The `normalizedParams` construction: street and city uppercased for the
case-sensitive remote query. -/
def resolvedParams (p : SearchParams) : SearchParams :=
  { p with street := p.street.map jsToUpper, city := p.city.map jsToUpper }

/-- The in-memory filter chain of `searchProperties`: price-range filters
(inclusive, independently optional) then the case-insensitive category filter. -/
def applyFilters (p : SearchParams) (props : List PropertyPrice) : List PropertyPrice :=
  let f1 := match p.minPrice with
    | some m => props.filter (fun pr => jsGeNum pr.price m)
    | none => props
  let f2 := match p.maxPrice with
    | some m => f1.filter (fun pr => jsLeNum pr.price m)
    | none => f1
  match p.propertyType with
  | some t => f2.filter (fun pr =>
      jsToLower (propertyTypeString pr.propertyType) = jsToLower (propertyTypeString t))
  | none => f2

/-- The numeric sort comparator branch of `searchProperties`
(`a[sortField] < b[sortField]` is false when either price is `NaN`). -/
def numCompare (a b : Option Int) : Int :=
  match a, b with
  | some x, some y => if x < y then -1 else if y < x then 1 else 0
  | _, _ => 0

/-- The string (date) sort comparator branch. -/
def strCompare (a b : String) : Int :=
  if jsStrLt a b then -1 else if jsStrLt b a then 1 else 0

/-- `sortOrder === 'asc' ? 1 : -1` (the default direction is descending). -/
def sortSign (o : Option SortOrder) : Int :=
  match o with
  | some .asc => 1
  | _ => -1

/-- The comparator passed to `Array.prototype.sort`. -/
def sortComparator (sb : SortBy) (sign : Int) (a b : PropertyPrice) : Int :=
  match sb with
  | .price => numCompare a.price b.price * sign
  | .date => strCompare a.date b.date * sign

/-- The sorting step: a stable sort runs only when `sortBy` is supplied.
`Array.prototype.sort` (stable) with comparator `cmp` is modelled by a stable
sort under the relation `cmp a b ≤ 0`; insertion sort is used because it is
structurally recursive and hence kernel-computable. -/
def sortIfRequested (p : SearchParams) (props : List PropertyPrice) : List PropertyPrice :=
  match p.sortBy with
  | none => props
  | some sb =>
    props.insertionSort (fun a b => sortComparator sb (sortSign p.sortOrder) a b ≤ 0)

/-- The post-fetch pipeline of `searchProperties`: filter, optionally sort,
then paginate with the resolved defaults (`offset || 0`, `limit || 10`). -/
def searchPipeline (p : SearchParams) (props : List PropertyPrice) : SearchResponse :=
  let filtered := applyFilters p props
  let sorted := sortIfRequested p filtered
  let off := jsOrNum p.offset 0
  let lim := jsOrNum p.limit 10
  { properties := (sorted.drop off.toNat).take lim.toNat
    total := filtered.length
    offset := off
    limit := lim }

/-- `searchProperties` (sparqlService.ts) with the remote fetch abstracted:
`rows` is the row set the (query-built) SPARQL request returned. Validation
runs first; every row is parsed (one incomplete row fails the whole map);
then the pure pipeline produces the response. -/
def searchProperties (endpoint : String) (p : SearchParams) (rows : List SparqlBinding) :
    Except SearchError SearchResponse :=
  match validateSearch endpoint p with
  | some err => .error err
  | none =>
    (rows.mapM parsePropertyPrice).map (fun props => searchPipeline (resolvedParams p) props)

/-! ### `src/queries/queries.ts`: the date-filter transform -/

/-- The lower-bound FILTER line `addDateFilters` builds for `startDate`. -/
def startDateFilterLine (d : String) : String :=
  "      FILTER(?date >= \"" ++ d ++ "\"^^xsd:date)"

/-- The upper-bound FILTER line `addDateFilters` builds for `endDate`. -/
def endDateFilterLine (d : String) : String :=
  "      FILTER(?date <= \"" ++ d ++ "\"^^xsd:date)"

/-- `addDateFilters` (queries.ts): returns the query unchanged when no date
bound is supplied, or when the structural invariant fails (`lastIndexOf`
of the closing brace is `-1`, `indexOf` of `ORDER BY` is `-1`, or the former
exceeds the latter); otherwise splices the FILTER lines in immediately
before the final closing brace. -/
def addDateFilters (query : String) (startDate endDate : Option String) : String :=
  if strTruthy startDate = false ∧ strTruthy endDate = false then query
  else
    let whereEndIndex := jsLastIndexOf query closeBrace
    let orderByIndex := jsIndexOf query "ORDER BY"
    if whereEndIndex = -1 ∨ orderByIndex = -1 ∨ orderByIndex < whereEndIndex then query
    else
      let filterParts : List String :=
        (if strTruthy startDate then [startDateFilterLine (startDate.getD "")] else []) ++
        (if strTruthy endDate then [endDateFilterLine (endDate.getD "")] else [])
      (query.data.take whereEndIndex.toNat).asString ++ "\n" ++
        String.intercalate "\n" filterParts ++ "\n    " ++
        (query.data.drop whereEndIndex.toNat).asString

/-! ### Data model of `src/services/postcodeService.ts` -/

/-- A row of the local postcode table (`PostcodeRecord`, mapped by `mapRow`). -/
structure PostcodeRecord where
  postcode : String
  positionalQuality : Int
  easting : Int
  northing : Int
  countryCode : String
  nhsRegionalHaCode : String
  nhsHaCode : String
  adminCountyCode : String
  adminDistrictCode : String
  adminWardCode : String
deriving DecidableEq

/-- A record plus its computed distance from the query center
(`PostcodeDistance`). The code stores `distanceMeters = sqrt(dx²+dy²)` as a
float; this model stores the squared distance `dx²+dy²` instead. Every
comparison the service performs on distances — the explicit-radius threshold
and the ascending sort — agrees with the corresponding comparison on squared
distances (the square root is strictly monotone, and for the coordinate
magnitudes involved, well under 2^53, the IEEE-rounded square root preserves
those comparisons exactly). -/
structure PostcodeDistance extends PostcodeRecord where
  distanceSq : Int
deriving DecidableEq

/-- Lookup parameters (`PostcodeLookupParams`). The validated zod schema
bounds them (limit a positive integer, radius positive and at most 200000);
the fields stay optional here, as in the service itself. -/
structure PostcodeLookupParams where
  postcode : Option String := none
  easting : Option Int := none
  northing : Option Int := none
  limit : Option Nat := none
  radiusMeters : Option Int := none
  includeSelf : Option Bool := none
  adminDistrict : Option String := none
deriving DecidableEq

/-- The lookup result record. -/
structure LookupResult where
  center : PostcodeRecord
  postcodes : List PostcodeDistance
  total : Nat
deriving DecidableEq

/-- The one error `lookupPostcodes` itself throws. -/
inductive LookupError where
  | notFound (pc : String)
deriving DecidableEq

/-- `DEFAULT_RADIUS` (postcodeService.ts). -/
def DEFAULT_RADIUS : Int := 5000

/-- `MAX_RADIUS` (postcodeService.ts). -/
def MAX_RADIUS : Int := 200000

/-- `normalizePostcode` (postcodeService.ts): trim then uppercase — nothing
else; internal spacing is preserved verbatim. -/
def normalizePostcode (s : String) : String := jsToUpper (jsTrim s)

/-- `getPostcodeRecord`: primary-key lookup of the normalized postcode in the
local table. -/
def getPostcodeRecord (db : List PostcodeRecord) (pc : String) : Option PostcodeRecord :=
  db.find? (fun r => decide (r.postcode = normalizePostcode pc))

/-- `queryByRadius`: the rtree bounding-box query. Each indexed rectangle is
degenerate (`minX = maxX = easting`, `minY = maxY = northing`), so the SQL
conditions `r.maxX >= minX AND r.minX <= maxX AND r.maxY >= minY AND
r.minY <= maxY` reduce to point-in-box tests; the optional admin-district
equality is appended only when the argument is truthy (JS `adminDistrict ?`),
and `LIMIT ?` caps the row count (default 2000). -/
def queryByRadius (db : List PostcodeRecord) (centerE centerN radius : Int)
    (adminDistrict : Option String) (limit : Nat := 2000) : List PostcodeRecord :=
  let minX := centerE - radius
  let maxX := centerE + radius
  let minY := centerN - radius
  let maxY := centerN + radius
  (db.filter (fun r =>
    decide (minX ≤ r.easting) && decide (r.easting ≤ maxX) &&
    decide (minY ≤ r.northing) && decide (r.northing ≤ maxY) &&
    (!strTruthy adminDistrict || decide (r.adminDistrictCode = adminDistrict.getD "")))).take limit

/-- JS truthiness of the optional radius (`if (params.radiusMeters) break`):
`undefined` and `0` are falsy. -/
def radiusTruthy (o : Option Int) : Bool :=
  match o with
  | some r => decide (r ≠ 0)
  | none => false

/-- The `while` loop of `lookupPostcodes` ("expand search radius until we have
enough candidates or hit MAX_RADIUS"), with an explicit fuel parameter:
`none` models non-termination of the source loop (which can occur only for a
zero starting radius, a value the validated schema excludes). On success it
returns the final candidate list, the final value of the `radius` variable,
and the trace of radii at which `queryByRadius` was actually invoked. -/
def expandLoop (db : List PostcodeRecord) (centerE centerN : Int) (lim : Nat)
    (adminDistrict : Option String) (explicitRadius : Option Int) :
    Nat → Int → List PostcodeRecord → Option (List PostcodeRecord × Int × List Int)
  | fuel, radius, cand =>
    if cand.length < lim ∧ radius ≤ MAX_RADIUS then
      match fuel with
      | 0 => none
      | fuel' + 1 =>
        let cand' := queryByRadius db centerE centerN radius adminDistrict
        if radiusTruthy explicitRadius then some (cand', radius, [radius])
        else
          let radius' := if cand'.length < lim then radius * 2 else radius
          match expandLoop db centerE centerN lim adminDistrict explicitRadius fuel' radius' cand' with
          | none => none
          | some (c, r, t) => some (c, r, radius :: t)
    else some (cand, radius, [])

/-- Fuel for the loop model: 64 exceeds the iteration count of any run that
starts from a nonzero radius (the radius doubles past `MAX_RADIUS` in at most
19 steps from radius 1). -/
def lookupFuel : Nat := 64

/-- Whether the true distance exceeds the explicit radius, i.e.
`sqrt dsq > R` over the reals, expressed on the squared distance. -/
def distExceeds (dsq R : Int) : Bool :=
  if R < 0 then true else decide (R * R < dsq)

/-- The filter predicate applied to each candidate-with-distance: drop the
center's own postcode unless `includeSelf`, and drop candidates beyond the
explicit radius when one was supplied. -/
def keepNeighbour (params : PostcodeLookupParams) (includeSelf : Bool)
    (rec : PostcodeDistance) : Bool :=
  if !includeSelf && strTruthy params.postcode &&
      decide (rec.postcode = normalizePostcode (params.postcode.getD "")) then false
  else if (match params.radiusMeters with
           | some R => distExceeds rec.distanceSq R
           | none => false) then false
  else true

/-- The map–filter–sort chain producing `withDistance` in `lookupPostcodes`. -/
def neighbourPipeline (params : PostcodeLookupParams) (includeSelf : Bool)
    (centerE centerN : Int) (candidates : List PostcodeRecord) : List PostcodeDistance :=
  ((candidates.map (fun r =>
      { toPostcodeRecord := r
        distanceSq := (r.easting - centerE) * (r.easting - centerE) +
                      (r.northing - centerN) * (r.northing - centerN) })).filter
    (keepNeighbour params includeSelf)).insertionSort
    (fun a b => a.distanceSq ≤ b.distanceSq)

/-- The synthetic center built from explicit coordinates (every metadata
field empty). The TypeScript reads `params.easting!`/`params.northing!` with
non-null assertions; behind the validated required-one-of schema this branch
always has both coordinates, so the `getD 0` placeholders are never
observed by any theorem below. -/
def syntheticCenter (e n : Int) : PostcodeRecord :=
  { postcode := ""
    positionalQuality := 0
    easting := e
    northing := n
    countryCode := ""
    nhsRegionalHaCode := ""
    nhsHaCode := ""
    adminCountyCode := ""
    adminDistrictCode := ""
    adminWardCode := "" }

/-- The center-resolution step of `lookupPostcodes`: a truthy `postcode` is
looked up by key (JS `if (params.postcode)`), throwing the not-found error on
a miss; otherwise the synthetic coordinate center is built. -/
def resolveCenter (db : List PostcodeRecord) (params : PostcodeLookupParams) :
    Except LookupError PostcodeRecord :=
  if strTruthy params.postcode then
    match getPostcodeRecord db (params.postcode.getD "") with
    | none => .error (.notFound (normalizePostcode (params.postcode.getD "")))
    | some rec => .ok rec
  else
    .ok (syntheticCenter (params.easting.getD 0) (params.northing.getD 0))

/-- The response assembled from the resolved center and the final candidate
set: the sorted-and-filtered neighbours truncated to `limit`, plus the
pre-truncation count as `total`. -/
def lookupResultOf (params : PostcodeLookupParams) (center : PostcodeRecord)
    (cands : List PostcodeRecord) : LookupResult :=
  let withDistance := neighbourPipeline params (params.includeSelf.getD false)
    center.easting center.northing cands
  { center := center
    postcodes := withDistance.take (params.limit.getD 10)
    total := withDistance.length }

/-- `lookupPostcodes` (postcodeService.ts), instrumented with the trace of
queried radii. `Except.error` models the thrown not-found error; `Option` is
the fuel model of the expansion loop (`none` = the source loop diverges). -/
def lookupPostcodesAux (db : List PostcodeRecord) (params : PostcodeLookupParams) :
    Except LookupError (Option (LookupResult × List Int)) :=
  match resolveCenter db params with
  | .error e => .error e
  | .ok center =>
    match expandLoop db center.easting center.northing (params.limit.getD 10)
        params.adminDistrict params.radiusMeters lookupFuel
        (params.radiusMeters.getD DEFAULT_RADIUS) [] with
    | none => .ok none
    | some (cands, _, trace) => .ok (some (lookupResultOf params center cands, trace))

/-- `lookupPostcodes` as the callers see it (the radius trace dropped). -/
def lookupPostcodes (db : List PostcodeRecord) (params : PostcodeLookupParams) :
    Except LookupError (Option LookupResult) :=
  (lookupPostcodesAux db params).map (Option.map Prod.fst)

/-! ### The spec's canonical postcode form, for comparison with the code's -/

/-- The specification's description of the canonical postcode form —
"uppercase, single space before final 3 characters" — as a definition, for
comparison with the code's `normalizePostcode` (which only trims and
uppercases). -/
def specCanonicalPostcode (s : String) : String :=
  let u := (jsToUpper (jsTrim s)).data.filter (fun c => c ≠ ' ')
  ((u.take (u.length - 3)) ++ ' ' :: u.drop (u.length - 3)).asString

/-! ### Concrete sample inputs for witnesses and counterexamples -/

/-- A complete SPARQL row (amount, date and property-type category present). -/
def sampleCompleteRow : SparqlBinding :=
  { amount := some "100000", date := some "2020-01-01",
    propertyType := some "http://landregistry.data.gov.uk/def/common/terraced",
    street := some "HIGH STREET" }

/-- A row lacking the mandatory property-type category field. -/
def sampleIncompleteRow : SparqlBinding :=
  { amount := some "100000", date := some "2020-01-01", propertyType := none }

/-- Criteria carrying both identifying forms: a postcode and a street+city pair. -/
def bothFormsCriteria : SearchParams :=
  { postcode := some "SW1A 1AA", street := some "DOWNING STREET", city := some "LONDON" }

/-- Criteria with a sort direction but no sort field. -/
def sortOrderOnlyCriteria : SearchParams :=
  { postcode := some "AA1 1AA", sortOrder := some .asc }

/-- A complete row dated 2021 (the remote default order lists it first). -/
def sampleRow2021 : SparqlBinding :=
  { amount := some "200000", date := some "2021-01-01",
    propertyType := some "http://landregistry.data.gov.uk/def/common/detached" }

/-- A complete row dated 2020. -/
def sampleRow2020 : SparqlBinding :=
  { amount := some "100000", date := some "2020-01-01",
    propertyType := some "http://landregistry.data.gov.uk/def/common/detached" }

/-- Fixture record at the center (as in the repository's unit tests). -/
def recordAA : PostcodeRecord :=
  { postcode := "AA1 1AA", positionalQuality := 10, easting := 1000, northing := 1000,
    countryCode := "C1", nhsRegionalHaCode := "NR1", nhsHaCode := "NH1",
    adminCountyCode := "AC1", adminDistrictCode := "AD1", adminWardCode := "AW1" }

/-- Fixture record a short distance away. -/
def recordAB : PostcodeRecord :=
  { postcode := "AA1 1AB", positionalQuality := 10, easting := 1005, northing := 1005,
    countryCode := "C1", nhsRegionalHaCode := "NR1", nhsHaCode := "NH1",
    adminCountyCode := "AC1", adminDistrictCode := "AD1", adminWardCode := "AW1" }

/-- Fixture record farther away, in another administrative district. -/
def recordAC : PostcodeRecord :=
  { postcode := "AA1 1AC", positionalQuality := 10, easting := 1200, northing := 1200,
    countryCode := "C1", nhsRegionalHaCode := "NR1", nhsHaCode := "NH1",
    adminCountyCode := "AC1", adminDistrictCode := "AD2", adminWardCode := "AW2" }

/-- A small postcode table mirroring the repository's unit-test fixture. -/
def sampleDb : List PostcodeRecord := [recordAA, recordAB, recordAC]

/-- The result the explicit-radius lookup over `sampleDb` yields: the one
neighbour within 50 units, at squared distance 50. -/
def sampleExplicitResult : LookupResult :=
  { center := recordAA
    postcodes := [{ toPostcodeRecord := recordAB, distanceSq := 50 }]
    total := 1 }

/-- Lookup criteria naming a postcode absent from the table. -/
def missingLookupParams : PostcodeLookupParams := { postcode := some "ZZ9 9ZZ" }

/-- Lookup criteria with an explicit radius. -/
def sampleExplicitRadiusParams : PostcodeLookupParams :=
  { postcode := some "AA1 1AA", limit := some 2, radiusMeters := some 50 }

/-- Lookup criteria with no explicit radius. -/
def sampleDefaultRadiusParams : PostcodeLookupParams :=
  { postcode := some "AA1 1AA", limit := some 2 }

/-- Lookup criteria whose postcode is given without the internal space. -/
def unspacedLookupParams : PostcodeLookupParams :=
  { postcode := some "AA11AA", radiusMeters := some 50 }

/-! ### Helper lemmas on the result mapper -/

/-- Computation rule for the `Except` bind on a success. -/
lemma exceptBind_ok {ε α β : Type} (a : α) (f : α → Except ε β) :
    (Except.ok a >>= f) = f a := rfl

/-- Computation rule for the `Except` bind on a failure. -/
lemma exceptBind_error {ε α β : Type} (e : ε) (f : α → Except ε β) :
    ((Except.error e : Except ε α) >>= f) = .error e := rfl

/-- The only error `parsePropertyPrice` ever throws is the incomplete-record one. -/
lemma parse_error_eq {b : SparqlBinding} {e : SearchError}
    (h : parsePropertyPrice b = .error e) : e = .incompleteRecord := by
  obtain ⟨am, da, pc, pt, st, tw, co, pa, sa, ca, es, nb⟩ := b
  cases am <;> cases da <;> cases pt <;> simp [parsePropertyPrice] at h <;> exact h.symm

/-- One failing row fails the whole monadic map. -/
lemma mapM_parse_fails {b : SparqlBinding} {rows : List SparqlBinding}
    (hb : b ∈ rows) (he : parsePropertyPrice b = .error .incompleteRecord) :
    rows.mapM parsePropertyPrice = .error .incompleteRecord := by
  induction rows with
  | nil => cases hb
  | cons a l ih =>
    rw [List.mapM_cons]
    rcases List.mem_cons.mp hb with hba | hbl
    · subst hba; rw [he, exceptBind_error]
    · cases hfa : parsePropertyPrice a with
      | ok v => rw [exceptBind_ok, ih hbl, exceptBind_error]
      | error e => rw [exceptBind_error, parse_error_eq hfa]

/-- The monadic map over the parser either succeeds or fails with the
incomplete-record error. -/
lemma mapM_parse_cases (rows : List SparqlBinding) :
    (∃ props, rows.mapM parsePropertyPrice = .ok props) ∨
      rows.mapM parsePropertyPrice = .error .incompleteRecord := by
  induction rows with
  | nil => exact .inl ⟨[], rfl⟩
  | cons a l ih =>
    rw [List.mapM_cons]
    cases hfa : parsePropertyPrice a with
    | ok v =>
      rcases ih with ⟨props, hp⟩ | hp
      · exact .inl ⟨v :: props, by rw [exceptBind_ok, hp, exceptBind_ok]; rfl⟩
      · exact .inr (by rw [exceptBind_ok, hp, exceptBind_error])
    | error e =>
      refine .inr ?_
      rw [exceptBind_error, parse_error_eq hfa]

/-! ### C1 -/

/-- C1: `parsePropertyPrice` fails with the incomplete-record error exactly
when the amount, date, or category (property-type classification) field is
absent from the row; with all three present it succeeds, defaulting the
absent optional fields to `""`; any category identifier outside the fixed
four-entry table maps to `other` without failing; and a single failing row
makes the whole search fail rather than being skipped. -/
theorem parsePropertyPrice_mandatoryFields (b : SparqlBinding) :
    (parsePropertyPrice b = .error .incompleteRecord ↔
      b.amount = none ∨ b.date = none ∨ b.propertyType = none)
    ∧ (∀ a d t, b.amount = some a → b.date = some d → b.propertyType = some t →
        parsePropertyPrice b =
          .ok ⟨parseIntJS a, d, b.postcode.getD "", mapPropertyType t,
               b.street.getD "", b.town.getD ""⟩)
    ∧ (∀ uri, uri ∉ knownPropertyTypeUris → mapPropertyType uri = .other)
    ∧ (∀ endpoint p rows, b ∈ rows → parsePropertyPrice b = .error .incompleteRecord →
        ∀ res, searchProperties endpoint p rows ≠ .ok res) := by
  refine ⟨?_, ?_, ?_, ?_⟩
  · obtain ⟨am, da, pc, pt, st, tw, co, pa, sa, ca, es, nb⟩ := b
    cases am <;> cases da <;> cases pt <;> simp [parsePropertyPrice]
  · intro a d t ha hd ht
    obtain ⟨am, da, pc, pt, st, tw, co, pa, sa, ca, es, nb⟩ := b
    simp only at ha hd ht
    subst ha; subst hd; subst ht
    rfl
  · intro uri h
    simp only [knownPropertyTypeUris, List.mem_cons, List.not_mem_nil, or_false, not_or] at h
    obtain ⟨h1, h2, h3, h4⟩ := h
    simp [mapPropertyType, h1, h2, h3, h4]
  · intro endpoint p rows hb he res
    unfold searchProperties
    cases hv : validateSearch endpoint p with
    | some err => simp
    | none =>
      rw [mapM_parse_fails hb he]
      simp [Except.map]

/-- C1 witness: a concrete incomplete row is rejected, and a concrete
complete row parses with the defaults. -/
theorem parsePropertyPrice_mandatoryFields_witness :
    parsePropertyPrice sampleIncompleteRow = .error .incompleteRecord
    ∧ parsePropertyPrice sampleCompleteRow =
        .ok ⟨parseIntJS "100000", "2020-01-01", "", mapPropertyType
             "http://landregistry.data.gov.uk/def/common/terraced", "HIGH STREET", ""⟩ :=
  ⟨(parsePropertyPrice_mandatoryFields sampleIncompleteRow).1.mpr (by decide),
   (parsePropertyPrice_mandatoryFields sampleCompleteRow).2.1 "100000" "2020-01-01"
     "http://landregistry.data.gov.uk/def/common/terraced" rfl rfl rfl⟩

/-! ### C2 -/

/-- C2 counterexample: criteria containing both a postcode and a street+city
pair are accepted (the search returns normally), not rejected as the claimed
mutual exclusivity would require. -/
theorem searchProperties_bothFormsAccepted :
    searchProperties "http://example.org" bothFormsCriteria [] = .ok ⟨[], 0, 0, 10⟩ := by
  decide

/-- `searchProperties` reports the missing-key validation error exactly when
the validation sequence does. -/
lemma searchProperties_missing_iff (endpoint : String) (p : SearchParams)
    (rows : List SparqlBinding) :
    searchProperties endpoint p rows = .error .missingSearchKey ↔
      validateSearch endpoint p = some .missingSearchKey := by
  unfold searchProperties
  cases hv : validateSearch endpoint p with
  | some err => simp
  | none =>
    rcases mapM_parse_cases rows with ⟨props, hp⟩ | hp <;> rw [hp] <;> simp [Except.map]

/-- The validation sequence reports the missing-key error exactly when
neither identifying form is present. -/
lemma validateSearch_missing_iff (endpoint : String) (p : SearchParams)
    (he : ¬(endpoint = "" ∨ jsStartsWith endpoint "http" = false)) :
    validateSearch endpoint p = some .missingSearchKey ↔
      ¬(strTruthy p.postcode = true ∨
        (strTruthy p.street = true ∧ strTruthy p.city = true)) := by
  unfold validateSearch
  rw [if_neg he]
  by_cases hC : ¬(strTruthy p.postcode = true ∨
      (strTruthy p.street = true ∧ strTruthy p.city = true))
  · rw [if_pos hC]; simp [hC]
  · rw [if_neg hC]
    simp only [hC, iff_false]
    split_ifs <;> simp

/-- C2 (amended): `searchProperties` raises the missing-search-key
`ValidationError` exactly when neither a (nonempty) postcode nor a complete
(street, city) pair is present; the two forms are not mutually exclusive —
criteria carrying both are accepted, with the postcode form taking
precedence. -/
theorem searchProperties_requiredKey (endpoint : String) (p : SearchParams)
    (rows : List SparqlBinding) (he : endpoint ≠ "")
    (hs : jsStartsWith endpoint "http" = true) :
    searchProperties endpoint p rows = .error .missingSearchKey ↔
      ¬(strTruthy p.postcode = true ∨
        (strTruthy p.street = true ∧ strTruthy p.city = true)) :=
  (searchProperties_missing_iff endpoint p rows).trans
    (validateSearch_missing_iff endpoint p (by simp [he, hs]))

/-- C2 witness: empty criteria are rejected with the missing-key error at a
concrete endpoint. -/
theorem searchProperties_requiredKey_witness :
    searchProperties "http://example.org" {} [] = .error .missingSearchKey :=
  (searchProperties_requiredKey "http://example.org" {} [] (by decide) (by decide)).mpr
    (by decide)

/-- With validation passed and every row parsed, the search is the pure
pipeline over the normalized parameters. -/
lemma searchProperties_ok (endpoint : String) (p : SearchParams)
    (rows : List SparqlBinding) (props : List PropertyPrice)
    (hv : validateSearch endpoint p = none)
    (hm : rows.mapM parsePropertyPrice = .ok props) :
    searchProperties endpoint p rows = .ok (searchPipeline (resolvedParams p) props) := by
  unfold searchProperties
  rw [hv, hm]
  rfl

/-! ### C3 -/

/-- C3 counterexample: with `sortOrder: asc` supplied but no `sortBy`, the
result keeps the remote (date-descending) row order — it is not re-sorted
into ascending date order as the claim's defaulted sort field would give. -/
theorem searchProperties_sortOrderAlone_noSort :
    searchProperties "http://example.org" sortOrderOnlyCriteria [sampleRow2021, sampleRow2020] =
      .ok ⟨[⟨some 200000, "2021-01-01", "", .detached, "", ""⟩,
            ⟨some 100000, "2020-01-01", "", .detached, "", ""⟩], 2, 0, 10⟩
    ∧ ¬ List.Pairwise (fun a b : PropertyPrice => jsStrLt b.date a.date = false)
        [⟨some 200000, "2021-01-01", "", .detached, "", ""⟩,
         ⟨some 100000, "2020-01-01", "", .detached, "", ""⟩] := by
  constructor
  · decide
  · intro h
    have := List.rel_of_pairwise_cons h (List.mem_singleton.mpr rfl)
    revert this
    decide

/-- C3 (amended): the filtered records are re-sorted exactly when `sortBy` is
supplied. Supplying `sortOrder` alone triggers no sorting — with `sortBy`
absent the result is the untouched slice of the filtered list in remote
order, whatever `sortOrder` holds; with `sortBy` supplied the result is the
stable sort by the requested field (`price` when `sortBy = price`, otherwise
the date field) in the requested direction. -/
theorem searchProperties_sortOnlyWhenSortBy (endpoint : String) (p : SearchParams)
    (rows : List SparqlBinding) (props : List PropertyPrice)
    (hv : validateSearch endpoint p = none)
    (hm : rows.mapM parsePropertyPrice = .ok props) :
    (p.sortBy = none →
      searchProperties endpoint p rows =
        .ok { properties := ((applyFilters (resolvedParams p) props).drop
                  (jsOrNum p.offset 0).toNat).take (jsOrNum p.limit 10).toNat,
              total := (applyFilters (resolvedParams p) props).length,
              offset := jsOrNum p.offset 0,
              limit := jsOrNum p.limit 10 })
    ∧ (∀ sb, p.sortBy = some sb →
      searchProperties endpoint p rows =
        .ok { properties := (((applyFilters (resolvedParams p) props).insertionSort
                  (fun a b => sortComparator sb (sortSign p.sortOrder) a b ≤ 0)).drop
                  (jsOrNum p.offset 0).toNat).take (jsOrNum p.limit 10).toNat,
              total := (applyFilters (resolvedParams p) props).length,
              offset := jsOrNum p.offset 0,
              limit := jsOrNum p.limit 10 }) := by
  constructor
  · intro h
    rw [searchProperties_ok endpoint p rows props hv hm]
    have hq : (resolvedParams p).sortBy = none := h
    simp only [searchPipeline, sortIfRequested, hq]
    rfl
  · intro sb h
    rw [searchProperties_ok endpoint p rows props hv hm]
    have hq : (resolvedParams p).sortBy = some sb := h
    simp only [searchPipeline, sortIfRequested, hq]
    rfl

/-- C3 witness: the amended theorem applied to a concrete search in which
`sortOrder` is supplied without `sortBy`. -/
theorem searchProperties_sortOnlyWhenSortBy_witness :
    searchProperties "http://example.org" sortOrderOnlyCriteria [sampleRow2021, sampleRow2020] =
      .ok { properties := ((applyFilters (resolvedParams sortOrderOnlyCriteria)
                [⟨some 200000, "2021-01-01", "", .detached, "", ""⟩,
                 ⟨some 100000, "2020-01-01", "", .detached, "", ""⟩]).drop
                (jsOrNum sortOrderOnlyCriteria.offset 0).toNat).take
                (jsOrNum sortOrderOnlyCriteria.limit 10).toNat,
            total := (applyFilters (resolvedParams sortOrderOnlyCriteria)
                [⟨some 200000, "2021-01-01", "", .detached, "", ""⟩,
                 ⟨some 100000, "2020-01-01", "", .detached, "", ""⟩]).length,
            offset := jsOrNum sortOrderOnlyCriteria.offset 0,
            limit := jsOrNum sortOrderOnlyCriteria.limit 10 } :=
  (searchProperties_sortOnlyWhenSortBy "http://example.org" sortOrderOnlyCriteria
    [sampleRow2021, sampleRow2020]
    [⟨some 200000, "2021-01-01", "", .detached, "", ""⟩,
     ⟨some 100000, "2020-01-01", "", .detached, "", ""⟩]
    (by decide) (by decide)).1 rfl

/-! ### C4 -/

/-- C4: the search result's `total` is the filtered count, computed before
pagination and hence unchanged by `offset`/`limit`; `properties` is the
`[offset, offset+limit)` slice of the filtered (and possibly sorted) list;
and the returned `offset`/`limit` are the resolved defaults (`0`/`10` when
unspecified), never the post-filter count. -/
theorem searchProperties_paginationContract (endpoint : String) (p : SearchParams)
    (rows : List SparqlBinding) (props : List PropertyPrice)
    (hv : validateSearch endpoint p = none)
    (hm : rows.mapM parsePropertyPrice = .ok props) :
    (searchProperties endpoint p rows =
      .ok { properties := ((sortIfRequested (resolvedParams p)
                (applyFilters (resolvedParams p) props)).drop
                (jsOrNum p.offset 0).toNat).take (jsOrNum p.limit 10).toNat,
            total := (applyFilters (resolvedParams p) props).length,
            offset := jsOrNum p.offset 0,
            limit := jsOrNum p.limit 10 })
    ∧ (∀ o l, validateSearch endpoint { p with offset := o, limit := l } = none →
      searchProperties endpoint { p with offset := o, limit := l } rows =
        .ok { properties := ((sortIfRequested (resolvedParams p)
                  (applyFilters (resolvedParams p) props)).drop
                  (jsOrNum o 0).toNat).take (jsOrNum l 10).toNat,
              total := (applyFilters (resolvedParams p) props).length,
              offset := jsOrNum o 0,
              limit := jsOrNum l 10 }) := by
  constructor
  · rw [searchProperties_ok endpoint p rows props hv hm]
    rfl
  · intro o l hv'
    rw [searchProperties_ok endpoint { p with offset := o, limit := l } rows props hv' hm]
    rfl

/-- C4 witness: the contract applied at a concrete search whose offset skips
the first record, with the total unaffected. -/
theorem searchProperties_paginationContract_witness :
    searchProperties "http://example.org"
        { postcode := some "AA1 1AA", offset := some 1, limit := some 1 }
        [sampleRow2021, sampleRow2020] =
      .ok { properties := ((sortIfRequested
                (resolvedParams { postcode := some "AA1 1AA", offset := some 1, limit := some 1 })
                (applyFilters
                  (resolvedParams { postcode := some "AA1 1AA", offset := some 1, limit := some 1 })
                  [⟨some 200000, "2021-01-01", "", .detached, "", ""⟩,
                   ⟨some 100000, "2020-01-01", "", .detached, "", ""⟩])).drop
                (jsOrNum (some 1) 0).toNat).take (jsOrNum (some 1) 10).toNat,
            total := (applyFilters
                (resolvedParams { postcode := some "AA1 1AA", offset := some 1, limit := some 1 })
                [⟨some 200000, "2021-01-01", "", .detached, "", ""⟩,
                 ⟨some 100000, "2020-01-01", "", .detached, "", ""⟩]).length,
            offset := jsOrNum (some 1) 0,
            limit := jsOrNum (some 1) 10 } :=
  (searchProperties_paginationContract "http://example.org"
    { postcode := some "AA1 1AA", offset := some 1, limit := some 1 }
    [sampleRow2021, sampleRow2020]
    [⟨some 200000, "2021-01-01", "", .detached, "", ""⟩,
     ⟨some 100000, "2020-01-01", "", .detached, "", ""⟩]
    (by decide) (by decide)).1

/-! ### C8 -/

/-- `lastMatch` misses exactly when the character does not occur. -/
lemma lastMatch_none_iff (c : Char) (l : List Char) :
    lastMatch c l = none ↔ c ∉ l := by
  induction l with
  | nil => simp [lastMatch]
  | cons x rest ih =>
    simp only [lastMatch]
    cases h : lastMatch c rest with
    | some n =>
      have hc : c ∈ rest := by
        by_contra hn
        rw [← ih] at hn
        rw [hn] at h
        cases h
      simp [hc]
    | none =>
      have hrest : c ∉ rest := ih.mp h
      by_cases hxc : x = c
      · subst hxc
        simp
      · simp [hxc, hrest]
        exact fun hcx => hxc hcx.symm

/-- A hit of `lastMatch` points at the character, and no later occurrence
exists. -/
lemma lastMatch_some_spec (c : Char) (l : List Char) (n : Nat)
    (h : lastMatch c l = some n) :
    l[n]? = some c ∧ c ∉ l.drop (n + 1) := by
  induction l generalizing n with
  | nil => cases h
  | cons x rest ih =>
    simp only [lastMatch] at h
    cases hr : lastMatch c rest with
    | some m =>
      rw [hr] at h
      obtain rfl : m + 1 = n := by cases h; rfl
      obtain ⟨h1, h2⟩ := ih m hr
      refine ⟨by simpa using h1, by simpa [List.drop_succ_cons] using h2⟩
    | none =>
      rw [hr] at h
      by_cases hxc : x = c
      · rw [if_pos hxc] at h
        obtain rfl : (0 : Nat) = n := by cases h; rfl
        exact ⟨by simp [hxc], by simpa using (lastMatch_none_iff c rest).mp hr⟩
      · rw [if_neg hxc] at h
        cases h

/-- `firstMatch` misses exactly when the pattern is not an infix. -/
lemma firstMatch_none_iff (pat l : List Char) :
    firstMatch pat l = none ↔ ¬ pat <:+: l := by
  induction l with
  | nil =>
    by_cases hp : pat = [] <;> simp [firstMatch, List.infix_nil, hp]
  | cons x rest ih =>
    simp only [firstMatch]
    by_cases hp : pat.isPrefixOf (x :: rest)
    · have hpre : pat <+: x :: rest := List.isPrefixOf_iff_prefix.mp hp
      simp [hp, List.infix_cons_iff, hpre]
    · have hpre : ¬ pat <+: x :: rest := fun hc => hp (List.isPrefixOf_iff_prefix.mpr hc)
      simp [hp, List.infix_cons_iff, hpre, ih]

/-- C8: `addDateFilters` is the identity when no date bound is supplied, when
the query has no closing brace, when it has no `ORDER BY` marker, or when its
last closing brace falls after the marker; otherwise it splices the inclusive
lower/upper date FILTER clauses in immediately before the final closing brace
(the index `w` below points at a closing brace with none occurring later). -/
theorem addDateFilters_insertion (q : String) (s e : Option String) :
    ((strTruthy s = false ∧ strTruthy e = false) → addDateFilters q s e = q)
    ∧ (closeBrace ∉ q.data → addDateFilters q s e = q)
    ∧ (¬ ("ORDER BY".data <:+: q.data) → addDateFilters q s e = q)
    ∧ (jsIndexOf q "ORDER BY" < jsLastIndexOf q closeBrace → addDateFilters q s e = q)
    ∧ (∀ w : Nat, lastMatch closeBrace q.data = some w →
        q.data[w]? = some closeBrace ∧ closeBrace ∉ q.data.drop (w + 1) ∧
        ((strTruthy s = true ∨ strTruthy e = true) →
          ¬ jsIndexOf q "ORDER BY" = -1 →
          ¬ jsIndexOf q "ORDER BY" < jsLastIndexOf q closeBrace →
          addDateFilters q s e =
            (q.data.take w).asString ++ "\n" ++
              String.intercalate "\n"
                ((if strTruthy s then [startDateFilterLine (s.getD "")] else []) ++
                 (if strTruthy e then [endDateFilterLine (e.getD "")] else [])) ++
              "\n    " ++ (q.data.drop w).asString)) := by
  refine ⟨fun h => ?_, fun h => ?_, fun h => ?_, fun h => ?_, fun w hw => ?_⟩
  · simp only [addDateFilters]
    rw [if_pos h]
  · by_cases hd : strTruthy s = false ∧ strTruthy e = false
    · simp only [addDateFilters]; rw [if_pos hd]
    · have hw : jsLastIndexOf q closeBrace = -1 := by
        unfold jsLastIndexOf
        rw [(lastMatch_none_iff _ _).mpr h]
      simp only [addDateFilters]
      rw [if_neg hd, if_pos (Or.inl hw)]
  · by_cases hd : strTruthy s = false ∧ strTruthy e = false
    · simp only [addDateFilters]; rw [if_pos hd]
    · have ho : jsIndexOf q "ORDER BY" = -1 := by
        unfold jsIndexOf
        rw [(firstMatch_none_iff _ _).mpr h]
      simp only [addDateFilters]
      rw [if_neg hd, if_pos (Or.inr (Or.inl ho))]
  · by_cases hd : strTruthy s = false ∧ strTruthy e = false
    · simp only [addDateFilters]; rw [if_pos hd]
    · simp only [addDateFilters]
      rw [if_neg hd, if_pos (Or.inr (Or.inr h))]
  · obtain ⟨h1, h2⟩ := lastMatch_some_spec closeBrace q.data w hw
    refine ⟨h1, h2, fun hd ho hlt => ?_⟩
    have hdn : ¬ (strTruthy s = false ∧ strTruthy e = false) := by
      rcases hd with h | h <;> simp [h]
    have hwi : jsLastIndexOf q closeBrace = (w : Int) := by
      unfold jsLastIndexOf
      rw [hw]
    rw [hwi] at hlt
    have hcond : ¬ ((w : Int) = -1 ∨ jsIndexOf q "ORDER BY" = -1 ∨
        jsIndexOf q "ORDER BY" < (w : Int)) := by
      push_neg
      exact ⟨by omega, ho, by omega⟩
    simp only [addDateFilters]
    rw [if_neg hdn, hwi, if_neg hcond]
    simp [Int.toNat_natCast]

/-- C8 witness: the transform applied to a concrete well-shaped query with a
lower date bound. -/
theorem addDateFilters_insertion_witness :
    addDateFilters "W \x7b \x7d ORDER BY x" (some "2020-01-01") none =
      (("W \x7b \x7d ORDER BY x" : String).data.take 4).asString ++ "\n" ++
        String.intercalate "\n" [startDateFilterLine "2020-01-01"] ++
        "\n    " ++ (("W \x7b \x7d ORDER BY x" : String).data.drop 4).asString :=
  ((addDateFilters_insertion "W \x7b \x7d ORDER BY x" (some "2020-01-01") none).2.2.2.2
    4 (by decide)).2.2 (Or.inl (by decide)) (by decide) (by decide)

/-! ### Lemmas on the radius-expansion loop -/

/-- When the `while` condition fails, the loop returns immediately with no
query issued. -/
lemma expandLoop_exit {db : List PostcodeRecord} {cE cN : Int} {lim : Nat}
    {ad : Option String} {ex : Option Int} {fuel : Nat} {radius : Int}
    {cand : List PostcodeRecord}
    (h : ¬(cand.length < lim ∧ radius ≤ MAX_RADIUS)) :
    expandLoop db cE cN lim ad ex fuel radius cand = some (cand, radius, []) := by
  cases fuel <;> (simp only [expandLoop]; rw [if_neg h])

/-- An empty query trace can only come from the immediate-exit branch. -/
lemma expandLoop_nil_trace {db : List PostcodeRecord} {cE cN : Int} {lim : Nat}
    {ad : Option String} {ex : Option Int} {fuel : Nat} {radius : Int}
    {cand c : List PostcodeRecord} {r : Int}
    (h : expandLoop db cE cN lim ad ex fuel radius cand = some (c, r, [])) :
    c = cand ∧ r = radius ∧ ¬(cand.length < lim ∧ radius ≤ MAX_RADIUS) := by
  by_cases hc : cand.length < lim ∧ radius ≤ MAX_RADIUS
  · exfalso
    cases fuel with
    | zero =>
      simp only [expandLoop] at h
      rw [if_pos hc] at h
      cases h
    | succ fuel' =>
      simp only [expandLoop] at h
      rw [if_pos hc] at h
      by_cases hex : radiusTruthy ex = true
      · rw [if_pos hex] at h
        simp at h
      · rw [if_neg hex] at h
        cases hrec : expandLoop db cE cN lim ad ex fuel'
            (if (queryByRadius db cE cN radius ad).length < lim then radius * 2 else radius)
            (queryByRadius db cE cN radius ad) with
        | none => rw [hrec] at h; cases h
        | some out =>
          obtain ⟨c', r', t'⟩ := out
          rw [hrec] at h
          simp at h
  · rw [expandLoop_exit hc] at h
    have h' : cand = c ∧ radius = r := by simpa using h
    exact ⟨h'.1.symm, h'.2.symm, hc⟩

/-- Termination of the loop model: from a positive radius, enough fuel to
double past the ceiling guarantees a result. -/
lemma expandLoop_isSome {db : List PostcodeRecord} {cE cN : Int} {lim : Nat}
    {ad : Option String} {ex : Option Int} :
    ∀ (fuel : Nat) (radius : Int) (cand : List PostcodeRecord), 1 ≤ radius →
      MAX_RADIUS < 2 ^ fuel * radius →
      ∃ out, expandLoop db cE cN lim ad ex fuel radius cand = some out := by
  intro fuel
  induction fuel with
  | zero =>
    intro radius cand h1 h2
    rw [pow_zero, one_mul] at h2
    exact ⟨(cand, radius, []), expandLoop_exit (fun hcc => absurd h2 (not_lt.mpr hcc.2))⟩
  | succ fuel' ih =>
    intro radius cand h1 h2
    by_cases hc : cand.length < lim ∧ radius ≤ MAX_RADIUS
    · by_cases hex : radiusTruthy ex = true
      · exact ⟨(queryByRadius db cE cN radius ad, radius, [radius]), by
          simp only [expandLoop]; rw [if_pos hc, if_pos hex]⟩
      · by_cases hcl : (queryByRadius db cE cN radius ad).length < lim
        · obtain ⟨⟨c2, r2, t2⟩, hout⟩ := ih (radius * 2) (queryByRadius db cE cN radius ad)
            (by linarith)
            (by rw [show (2 : Int) ^ fuel' * (radius * 2) = 2 ^ (fuel' + 1) * radius from by ring]
                exact h2)
          exact ⟨(c2, r2, radius :: t2), by
            simp only [expandLoop]; rw [if_pos hc, if_neg hex, if_pos hcl, hout]⟩
        · have hexit : expandLoop db cE cN lim ad ex fuel' radius
              (queryByRadius db cE cN radius ad) =
              some (queryByRadius db cE cN radius ad, radius, []) :=
            expandLoop_exit (fun hcc => hcl hcc.1)
          exact ⟨(queryByRadius db cE cN radius ad, radius, [radius]), by
            simp only [expandLoop]; rw [if_pos hc, if_neg hex, if_neg hcl, hexit]⟩
    · exact ⟨(cand, radius, []), expandLoop_exit hc⟩

/-- Shape of the adaptive (no explicit radius) run: the queried radii double
step by step, never exceed the ceiling, start at the starting radius, and the
final candidates come from the last queried radius, at which the loop stopped
either because it was filled or because the next doubling would overshoot. -/
lemma expandLoop_trace_spec {db : List PostcodeRecord} {cE cN : Int} {lim : Nat}
    {ad : Option String} {ex : Option Int} (hex : ¬ radiusTruthy ex = true) :
    ∀ (fuel : Nat) (radius : Int) (cand c : List PostcodeRecord) (r : Int) (t : List Int),
      expandLoop db cE cN lim ad ex fuel radius cand = some (c, r, t) →
      List.Chain' (fun a b => b = 2 * a) t
      ∧ (∀ x ∈ t, x ≤ MAX_RADIUS)
      ∧ (t = [] ∨ t.head? = some radius)
      ∧ (t ≠ [] → ∃ L, t.getLast? = some L ∧ c = queryByRadius db cE cN L ad ∧
          (lim ≤ (queryByRadius db cE cN L ad).length ∨ MAX_RADIUS < 2 * L)) := by
  intro fuel
  induction fuel with
  | zero =>
    intro radius cand c r t h
    by_cases hc : cand.length < lim ∧ radius ≤ MAX_RADIUS
    · simp only [expandLoop] at h
      rw [if_pos hc] at h
      cases h
    · rw [expandLoop_exit hc] at h
      have h' : cand = c ∧ radius = r ∧ [] = t := by simpa using h
      obtain ⟨rfl, rfl, rfl⟩ := h'
      simp
  | succ fuel' ih =>
    intro radius cand c r t h
    by_cases hc : cand.length < lim ∧ radius ≤ MAX_RADIUS
    · simp only [expandLoop] at h
      rw [if_pos hc, if_neg hex] at h
      by_cases hcl : (queryByRadius db cE cN radius ad).length < lim
      · rw [if_pos hcl] at h
        cases hrec : expandLoop db cE cN lim ad ex fuel' (radius * 2)
            (queryByRadius db cE cN radius ad) with
        | none => rw [hrec] at h; cases h
        | some out =>
          obtain ⟨c2, r2, t2⟩ := out
          rw [hrec] at h
          have h' : c2 = c ∧ r2 = r ∧ radius :: t2 = t := by simpa using h
          obtain ⟨rfl, rfl, rfl⟩ := h' 
          obtain ⟨ch2, bd2, hd2, ls2⟩ := ih (radius * 2) (queryByRadius db cE cN radius ad)
            c2 r2 t2 hrec
          refine ⟨?_, ?_, ?_, ?_⟩
          · cases t2 with
            | nil => simp
            | cons y t3 =>
              have hy : y = 2 * radius := by
                rcases hd2 with h'' | h''
                · cases h''
                · have : y = radius * 2 := by simpa using h''
                  omega
              rw [List.chain'_cons]
              exact ⟨hy.symm ▸ rfl, ch2⟩
          · intro x hx
            rcases List.mem_cons.mp hx with rfl | hx'
            · exact hc.2
            · exact bd2 x hx'
          · right; rfl
          · intro _
            cases t2 with
            | nil =>
              obtain ⟨hcc, hrr, hcond⟩ := expandLoop_nil_trace hrec
              refine ⟨radius, rfl, hcc, Or.inr ?_⟩
              rcases not_and_or.mp hcond with h'' | h''
              · exact absurd hcl h''
              · have := lt_of_not_le h''
                omega
            | cons y t3 =>
              obtain ⟨L, hL, hcq, hstop⟩ := ls2 (by simp)
              exact ⟨L, by rw [List.getLast?_cons_cons]; exact hL, hcq, hstop⟩
      · rw [if_neg hcl] at h
        have hexit : expandLoop db cE cN lim ad ex fuel' radius
            (queryByRadius db cE cN radius ad) =
            some (queryByRadius db cE cN radius ad, radius, []) :=
          expandLoop_exit (fun hcc => hcl hcc.1)
        rw [hexit] at h
        have h' : queryByRadius db cE cN radius ad = c ∧ radius = r ∧ [radius] = t := by
          simpa using h
        obtain ⟨hc1, hc2, hc3⟩ := h'
        subst hc1; subst hc2; subst hc3
        refine ⟨by simp, ?_, Or.inr rfl, fun _ => ⟨radius, rfl, rfl, Or.inl (not_lt.mp hcl)⟩⟩
        intro x hx
        rcases List.mem_cons.mp hx with rfl | hx'
        · exact hc.2
        · cases hx'
    · rw [expandLoop_exit hc] at h
      have h' : cand = c ∧ radius = r ∧ [] = t := by simpa using h
      obtain ⟨rfl, rfl, rfl⟩ := h'
      simp

/-- With a truthy explicit radius and the loop entered, exactly one query is
issued, at that radius, and the loop breaks. -/
lemma expandLoop_explicit {db : List PostcodeRecord} {cE cN : Int} {lim : Nat}
    {ad : Option String} {ex : Option Int} {fuel : Nat} {radius : Int}
    {cand : List PostcodeRecord}
    (hex : radiusTruthy ex = true) (hc : cand.length < lim ∧ radius ≤ MAX_RADIUS) :
    expandLoop db cE cN lim ad ex (fuel + 1) radius cand =
      some (queryByRadius db cE cN radius ad, radius, [radius]) := by
  simp only [expandLoop]
  rw [if_pos hc, if_pos hex]

/-! ### C5 -/

/-- C5: with an explicit radius (positive and within the documented 200,000
bound) exactly one bounding-box query is issued, at that radius, regardless
of the candidate count; with no explicit radius the search starts at the
default 5000, doubles the radius while under-filled, keeps every queried
radius within the 200,000 ceiling, stops once the result fills or the next
doubling would overshoot, and always terminates (never yields the
divergence marker `.ok none`). -/
theorem lookupPostcodes_radiusPolicy (db : List PostcodeRecord)
    (params : PostcodeLookupParams) (hlim : 1 ≤ params.limit.getD 10) :
    (∀ R : Int, params.radiusMeters = some R → 1 ≤ R → R ≤ MAX_RADIUS →
      lookupPostcodesAux db params ≠ .ok none
      ∧ ∀ res trace, lookupPostcodesAux db params = .ok (some (res, trace)) → trace = [R])
    ∧ (params.radiusMeters = none →
      lookupPostcodesAux db params ≠ .ok none
      ∧ ∀ res trace, lookupPostcodesAux db params = .ok (some (res, trace)) →
        trace.head? = some DEFAULT_RADIUS
        ∧ List.Chain' (fun a b => b = 2 * a) trace
        ∧ (∀ x ∈ trace, x ≤ MAX_RADIUS)
        ∧ ∃ L, trace.getLast? = some L ∧
            (params.limit.getD 10 ≤ (queryByRadius db res.center.easting
                res.center.northing L params.adminDistrict).length
             ∨ MAX_RADIUS < 2 * L)) := by
  constructor
  · intro R hR h1 h2
    cases hcen : resolveCenter db params with
    | error e =>
      have haux : lookupPostcodesAux db params = .error e := by
        simp only [lookupPostcodesAux, hcen]
      constructor
      · rw [haux]; intro hco; cases hco
      · intro res trace hco; rw [haux] at hco; cases hco
    | ok center =>
      have hzero : ([] : List PostcodeRecord).length < params.limit.getD 10 := by
        simpa using hlim
      have hfuel : lookupFuel = 63 + 1 := rfl
      have hexR : radiusTruthy (some R) = true := by
        simp only [radiusTruthy]
        simp
        omega
      have hloop : expandLoop db center.easting center.northing (params.limit.getD 10)
          params.adminDistrict params.radiusMeters lookupFuel
          (params.radiusMeters.getD DEFAULT_RADIUS) [] =
          some (queryByRadius db center.easting center.northing R params.adminDistrict,
            R, [R]) := by
        rw [hR, Option.getD_some, hfuel]
        exact expandLoop_explicit hexR ⟨hzero, h2⟩
      have haux : lookupPostcodesAux db params =
          .ok (some (lookupResultOf params center
            (queryByRadius db center.easting center.northing R params.adminDistrict),
            [R])) := by
        simp only [lookupPostcodesAux, hcen, hloop]
      constructor
      · rw [haux]; intro hco; simp at hco
      · intro res trace hco
        rw [haux] at hco
        have : [R] = trace := by
          have h' := hco
          simp only [Except.ok.injEq, Option.some.injEq, Prod.mk.injEq] at h'
          exact h'.2
        exact this.symm
  · intro hnone
    cases hcen : resolveCenter db params with
    | error e =>
      have haux : lookupPostcodesAux db params = .error e := by
        simp only [lookupPostcodesAux, hcen]
      constructor
      · rw [haux]; intro hco; cases hco
      · intro res trace hco; rw [haux] at hco; cases hco
    | ok center =>
      have hex : ¬ radiusTruthy params.radiusMeters = true := by
        rw [hnone]; simp [radiusTruthy]
      have hrad : params.radiusMeters.getD DEFAULT_RADIUS = DEFAULT_RADIUS := by
        rw [hnone]; rfl
      obtain ⟨⟨cands, fr, tr⟩, hloop⟩ :=
        @expandLoop_isSome db center.easting center.northing (params.limit.getD 10)
          params.adminDistrict params.radiusMeters lookupFuel
          (params.radiusMeters.getD DEFAULT_RADIUS) []
          (by rw [hrad]; norm_num [DEFAULT_RADIUS])
          (by rw [hrad]; norm_num [DEFAULT_RADIUS, MAX_RADIUS, lookupFuel])
      have haux : lookupPostcodesAux db params =
          .ok (some (lookupResultOf params center cands, tr)) := by
        simp only [lookupPostcodesAux, hcen, hloop]
      constructor
      · rw [haux]; intro hco; simp at hco
      · intro res trace hco
        rw [haux] at hco
        simp only [Except.ok.injEq, Option.some.injEq, Prod.mk.injEq] at hco
        obtain ⟨hres, htr⟩ := hco
        cases htr
        have hcond : ([] : List PostcodeRecord).length < params.limit.getD 10 ∧
            params.radiusMeters.getD DEFAULT_RADIUS ≤ MAX_RADIUS := by
          refine ⟨by simpa using hlim, ?_⟩
          rw [hrad]; norm_num [DEFAULT_RADIUS, MAX_RADIUS]
        have htne : tr ≠ [] := by
          intro habs
          subst habs
          obtain ⟨_, _, hstop⟩ := expandLoop_nil_trace hloop
          exact hstop hcond
        obtain ⟨hch, hbd, hhd, hls⟩ := expandLoop_trace_spec hex lookupFuel
          (params.radiusMeters.getD DEFAULT_RADIUS) [] cands fr tr hloop
        refine ⟨?_, hch, hbd, ?_⟩
        · rcases hhd with h' | h'
          · exact absurd h' htne
          · rw [← hrad]; exact h'
        · obtain ⟨L, hL, _, hstop⟩ := hls htne
          refine ⟨L, hL, ?_⟩
          rw [← hres]
          exact hstop

/-- C5 witness: the policy applied to the concrete fixture — the explicit
radius-50 lookup terminates (and its trace is exactly `[50]`). -/
theorem lookupPostcodes_radiusPolicy_witness :
    lookupPostcodesAux sampleDb sampleExplicitRadiusParams ≠ .ok none :=
  (((lookupPostcodes_radiusPolicy sampleDb sampleExplicitRadiusParams (by decide)).1)
    50 rfl (by decide) (by decide)).1

/-- Inversion of a successful lookup: a resolved center, a terminated
expansion, and the assembled result. -/
lemma lookupPostcodes_ok_inv {db : List PostcodeRecord} {params : PostcodeLookupParams}
    {res : LookupResult} (h : lookupPostcodes db params = .ok (some res)) :
    ∃ center cands fr tr,
      resolveCenter db params = .ok center ∧
      expandLoop db center.easting center.northing (params.limit.getD 10)
        params.adminDistrict params.radiusMeters lookupFuel
        (params.radiusMeters.getD DEFAULT_RADIUS) [] = some (cands, fr, tr) ∧
      res = lookupResultOf params center cands := by
  unfold lookupPostcodes at h
  cases hcen : resolveCenter db params with
  | error e =>
    rw [show lookupPostcodesAux db params = .error e by
      simp only [lookupPostcodesAux, hcen]] at h
    cases h
  | ok center =>
    cases hloop : expandLoop db center.easting center.northing (params.limit.getD 10)
        params.adminDistrict params.radiusMeters lookupFuel
        (params.radiusMeters.getD DEFAULT_RADIUS) [] with
    | none =>
      rw [show lookupPostcodesAux db params = .ok none by
        simp only [lookupPostcodesAux, hcen, hloop]] at h
      simp [Except.map] at h
    | some out =>
      obtain ⟨cands, fr, tr⟩ := out
      rw [show lookupPostcodesAux db params =
          .ok (some (lookupResultOf params center cands, tr)) by
        simp only [lookupPostcodesAux, hcen, hloop]] at h
      simp [Except.map] at h
      exact ⟨center, cands, fr, tr, rfl, hloop, h.symm⟩

/-- What survival of the neighbour filter means for a record. -/
lemma keepNeighbour_spec {params : PostcodeLookupParams} {incl : Bool}
    {rec : PostcodeDistance} (hk : keepNeighbour params incl rec = true) :
    (incl = false → ∀ pc, params.postcode = some pc → pc ≠ "" →
      rec.postcode ≠ normalizePostcode pc)
    ∧ (∀ R : Int, params.radiusMeters = some R →
      distExceeds rec.distanceSq R = false) := by
  unfold keepNeighbour at hk
  split_ifs at hk with h1 h2
  constructor
  · intro hincl pc hpc hpcne heq
    exact h1 (by simp [hincl, hpc, strTruthy, hpcne, heq, Option.getD_some])
  · intro R hR
    rw [hR] at h2
    simpa using h2

/-! ### C6 -/

/-- C6: every record in the returned neighbour list avoids the center's own
postcode unless `includeSelf` is set, and, when an explicit radius was
supplied, its true planar Euclidean distance (expressed on the squared
distance) does not exceed that radius — the circle-in-square correction on
top of the bounding-box pre-filter. -/
theorem lookupPostcodes_neighbourExclusions (db : List PostcodeRecord)
    (params : PostcodeLookupParams) (res : LookupResult)
    (h : lookupPostcodes db params = .ok (some res)) :
    ∀ rec ∈ res.postcodes,
      (params.includeSelf.getD false = false → ∀ pc, params.postcode = some pc →
        pc ≠ "" → rec.postcode ≠ normalizePostcode pc)
      ∧ (∀ R : Int, params.radiusMeters = some R → 0 ≤ R →
        rec.distanceSq ≤ R * R) := by
  obtain ⟨center, cands, fr, tr, hcen, hloop, hres⟩ := lookupPostcodes_ok_inv h
  subst hres
  intro rec hrec
  simp only [lookupResultOf] at hrec
  have hmem1 : rec ∈ neighbourPipeline params (params.includeSelf.getD false)
      center.easting center.northing cands := List.mem_of_mem_take hrec
  simp only [neighbourPipeline] at hmem1
  have hmem2 := (List.mem_insertionSort _).mp hmem1
  obtain ⟨_, hkeep⟩ := List.mem_filter.mp hmem2
  obtain ⟨hself, hdist⟩ := keepNeighbour_spec hkeep
  refine ⟨hself, fun R hR hR0 => ?_⟩
  have hd := hdist R hR
  unfold distExceeds at hd
  rw [if_neg (not_lt.mpr hR0)] at hd
  simpa using hd

/-- C6 witness: in the fixture's explicit-radius lookup the one neighbour
indeed lies within the radius (squared distance at most 50²). -/
theorem lookupPostcodes_neighbourExclusions_witness :
    ({ toPostcodeRecord := recordAB, distanceSq := 50 } : PostcodeDistance).distanceSq ≤
      50 * 50 :=
  ((lookupPostcodes_neighbourExclusions sampleDb sampleExplicitRadiusParams
    sampleExplicitResult (by decide))
    { toPostcodeRecord := recordAB, distanceSq := 50 } (by decide)).2 50 rfl (by decide)

/-! ### C7 -/

/-- C7: the returned neighbour list is sorted in ascending order of computed
distance (squared form), holds at most `limit` entries, and the reported
`total` is the size of the filtered-and-sorted list before truncation to
`limit` — so the truncation never changes `total`. -/
theorem lookupPostcodes_orderAndTotal (db : List PostcodeRecord)
    (params : PostcodeLookupParams) (res : LookupResult)
    (h : lookupPostcodes db params = .ok (some res)) :
    List.Sorted (fun a b : PostcodeDistance => a.distanceSq ≤ b.distanceSq) res.postcodes
    ∧ res.postcodes.length ≤ params.limit.getD 10
    ∧ ∃ center cands fr tr,
        resolveCenter db params = .ok center ∧
        expandLoop db center.easting center.northing (params.limit.getD 10)
          params.adminDistrict params.radiusMeters lookupFuel
          (params.radiusMeters.getD DEFAULT_RADIUS) [] = some (cands, fr, tr) ∧
        res.total = (neighbourPipeline params (params.includeSelf.getD false)
          center.easting center.northing cands).length ∧
        res.postcodes = (neighbourPipeline params (params.includeSelf.getD false)
          center.easting center.northing cands).take (params.limit.getD 10) := by
  obtain ⟨center, cands, fr, tr, hcen, hloop, hres⟩ := lookupPostcodes_ok_inv h
  subst hres
  refine ⟨?_, ?_, center, cands, fr, tr, hcen, hloop, rfl, rfl⟩
  · haveI : IsTotal PostcodeDistance (fun a b => a.distanceSq ≤ b.distanceSq) :=
      ⟨fun a b => le_total _ _⟩
    haveI : IsTrans PostcodeDistance (fun a b => a.distanceSq ≤ b.distanceSq) :=
      ⟨fun _ _ _ hab hbc => le_trans hab hbc⟩
    simp only [lookupResultOf, neighbourPipeline]
    exact List.Pairwise.sublist (List.take_sublist _ _) (List.sorted_insertionSort _ _)
  · simp only [lookupResultOf, List.length_take]
    exact min_le_left _ _

/-- C7 witness: the fixture's explicit-radius lookup returns at most `limit`
neighbours. -/
theorem lookupPostcodes_orderAndTotal_witness :
    sampleExplicitResult.postcodes.length ≤ sampleExplicitRadiusParams.limit.getD 10 :=
  (lookupPostcodes_orderAndTotal sampleDb sampleExplicitRadiusParams
    sampleExplicitResult (by decide)).2.1

/-! ### C10 -/

/-- Each bounding-box query is capped at 2000 rows. -/
lemma queryByRadius_le {db : List PostcodeRecord} {cE cN radius : Int}
    {ad : Option String} : (queryByRadius db cE cN radius ad).length ≤ 2000 := by
  simp only [queryByRadius, List.length_take]
  exact min_le_left _ _

/-- The loop's final candidate set stays within the cap. -/
lemma expandLoop_cands_le {db : List PostcodeRecord} {cE cN : Int} {lim : Nat}
    {ad : Option String} {ex : Option Int} :
    ∀ (fuel : Nat) (radius : Int) (cand c : List PostcodeRecord) (r : Int) (t : List Int),
      cand.length ≤ 2000 →
      expandLoop db cE cN lim ad ex fuel radius cand = some (c, r, t) →
      c.length ≤ 2000 := by
  intro fuel
  induction fuel with
  | zero =>
    intro radius cand c r t hle h
    by_cases hc : cand.length < lim ∧ radius ≤ MAX_RADIUS
    · simp only [expandLoop] at h
      rw [if_pos hc] at h
      cases h
    · rw [expandLoop_exit hc] at h
      have h' : cand = c ∧ radius = r ∧ [] = t := by simpa using h
      exact h'.1 ▸ hle
  | succ fuel' ih =>
    intro radius cand c r t hle h
    by_cases hc : cand.length < lim ∧ radius ≤ MAX_RADIUS
    · simp only [expandLoop] at h
      rw [if_pos hc] at h
      by_cases hex : radiusTruthy ex = true
      · rw [if_pos hex] at h
        have h' : queryByRadius db cE cN radius ad = c ∧ radius = r ∧ [radius] = t := by
          simpa using h
        exact h'.1 ▸ queryByRadius_le
      · rw [if_neg hex] at h
        by_cases hcl : (queryByRadius db cE cN radius ad).length < lim
        · rw [if_pos hcl] at h
          cases hrec : expandLoop db cE cN lim ad ex fuel' (radius * 2)
              (queryByRadius db cE cN radius ad) with
          | none => rw [hrec] at h; cases h
          | some out =>
            obtain ⟨c2, r2, t2⟩ := out
            rw [hrec] at h
            have h' : c2 = c ∧ r2 = r ∧ radius :: t2 = t := by simpa using h
            exact h'.1 ▸ ih (radius * 2) (queryByRadius db cE cN radius ad) c2 r2 t2
              queryByRadius_le hrec
        · rw [if_neg hcl] at h
          rw [expandLoop_exit (fun hcc => hcl hcc.1)] at h
          have h' : queryByRadius db cE cN radius ad = c ∧ radius = r ∧ [radius] = t := by
            simpa using h
          exact h'.1 ▸ queryByRadius_le
    · rw [expandLoop_exit hc] at h
      have h' : cand = c ∧ radius = r ∧ [] = t := by simpa using h
      exact h'.1 ▸ hle

/-- C10: every bounding-box query is silently capped at 2000 candidate rows,
so the candidate set, the reported `total` and the neighbour list of a lookup
never exceed 2000 entries, whatever the radius, limit or density. -/
theorem lookupPostcodes_cap2000 (db : List PostcodeRecord)
    (params : PostcodeLookupParams) :
    (∀ cE cN radius : Int, ∀ ad : Option String,
      (queryByRadius db cE cN radius ad).length ≤ 2000)
    ∧ ∀ res, lookupPostcodes db params = .ok (some res) →
        res.total ≤ 2000 ∧ res.postcodes.length ≤ 2000 := by
  refine ⟨fun cE cN radius ad => queryByRadius_le, fun res h => ?_⟩
  obtain ⟨center, cands, fr, tr, hcen, hloop, hres⟩ := lookupPostcodes_ok_inv h
  subst hres
  have hcle : cands.length ≤ 2000 :=
    expandLoop_cands_le lookupFuel (params.radiusMeters.getD DEFAULT_RADIUS) []
      cands fr tr (by simp) hloop
  have hple : (neighbourPipeline params (params.includeSelf.getD false)
      center.easting center.northing cands).length ≤ 2000 := by
    simp only [neighbourPipeline, List.length_insertionSort]
    calc (List.filter _ (List.map _ cands)).length
        ≤ (List.map _ cands).length := List.length_filter_le _ _
      _ = cands.length := List.length_map _ _
      _ ≤ 2000 := hcle
  constructor
  · exact hple
  · simp only [lookupResultOf, List.length_take]
    exact le_trans (min_le_right _ _) hple

/-- C10 witness: the cap instantiated on the fixture lookup. -/
theorem lookupPostcodes_cap2000_witness :
    sampleExplicitResult.total ≤ 2000 ∧ sampleExplicitResult.postcodes.length ≤ 2000 :=
  (lookupPostcodes_cap2000 sampleDb sampleExplicitRadiusParams).2
    sampleExplicitResult (by decide)

/-! ### C9 -/

/-- C9 counterexample: the claimed canonical form of `"AA11AA"` is
`"AA1 1AA"`, a key that exists in the table — yet the lookup fails with the
not-found error carrying `"AA11AA"`, because the code's normalization only
trims and uppercases, never re-inserting the space. -/
theorem lookupPostcodes_spacedCanonical_refuted :
    specCanonicalPostcode "AA11AA" = "AA1 1AA"
    ∧ (getPostcodeRecord sampleDb "AA1 1AA").isSome = true
    ∧ lookupPostcodes sampleDb unspacedLookupParams = .error (.notFound "AA11AA") := by
  decide

/-- C9 (amended): the center is resolved by fetching the record whose key
equals the input postcode trimmed and uppercased — internal spacing is kept
verbatim, not normalized to a single space before the final 3 characters —
failing with the not-found error when no such record exists; with
easting/northing given instead, the center is the synthetic record carrying
exactly those coordinates with every metadata field empty. -/
theorem lookupPostcodes_centerResolution (db : List PostcodeRecord)
    (params : PostcodeLookupParams) :
    (∀ pc, params.postcode = some pc → pc ≠ "" →
      (getPostcodeRecord db pc = none →
        lookupPostcodesAux db params = .error (.notFound (normalizePostcode pc)))
      ∧ (∀ rec, getPostcodeRecord db pc = some rec →
          ∀ res trace, lookupPostcodesAux db params = .ok (some (res, trace)) →
            res.center = rec))
    ∧ (strTruthy params.postcode = false →
      ∀ e n : Int, params.easting = some e → params.northing = some n →
        ∀ res trace, lookupPostcodesAux db params = .ok (some (res, trace)) →
          res.center = syntheticCenter e n) := by
  constructor
  · intro pc hpc hne
    have htr : strTruthy (some pc) = true := by simp [strTruthy, hne]
    constructor
    · intro hmiss
      have hcen : resolveCenter db params = .error (.notFound (normalizePostcode pc)) := by
        simp only [resolveCenter, hpc, Option.getD_some, htr, if_true, hmiss]
      simp only [lookupPostcodesAux, hcen]
    · intro rec hfound res trace h
      have hcen : resolveCenter db params = .ok rec := by
        simp only [resolveCenter, hpc, Option.getD_some, htr, if_true, hfound]
      cases hloop : expandLoop db rec.easting rec.northing (params.limit.getD 10)
          params.adminDistrict params.radiusMeters lookupFuel
          (params.radiusMeters.getD DEFAULT_RADIUS) [] with
      | none =>
        simp only [lookupPostcodesAux, hcen, hloop] at h
        cases h
      | some out =>
        obtain ⟨cands, fr, tr⟩ := out
        simp only [lookupPostcodesAux, hcen, hloop] at h
        simp only [Except.ok.injEq, Option.some.injEq, Prod.mk.injEq] at h
        rw [← h.1]
        rfl
  · intro hfalse e n he hn res trace h
    have hcen : resolveCenter db params = .ok (syntheticCenter e n) := by
      simp only [resolveCenter, hfalse, Bool.false_eq_true, if_false, he, hn,
        Option.getD_some]
    cases hloop : expandLoop db (syntheticCenter e n).easting (syntheticCenter e n).northing
        (params.limit.getD 10) params.adminDistrict params.radiusMeters lookupFuel
        (params.radiusMeters.getD DEFAULT_RADIUS) [] with
    | none =>
      simp only [lookupPostcodesAux, hcen, hloop] at h
      cases h
    | some out =>
      obtain ⟨cands, fr, tr⟩ := out
      simp only [lookupPostcodesAux, hcen, hloop] at h
      simp only [Except.ok.injEq, Option.some.injEq, Prod.mk.injEq] at h
      rw [← h.1]
      rfl

/-- C9 witness: a postcode absent from the table makes the lookup fail with
the not-found error for its trimmed-and-uppercased form. -/
theorem lookupPostcodes_centerResolution_witness :
    lookupPostcodesAux sampleDb missingLookupParams =
      .error (.notFound (normalizePostcode "ZZ9 9ZZ")) :=
  ((lookupPostcodes_centerResolution sampleDb missingLookupParams).1
    "ZZ9 9ZZ" rfl (by decide)).1 (by decide)

end PropertyPricesMCP
